import Mathlib

/-!
# Verification of `drawio_db/xml.py` (drawio-dv-to-anchor)

Shallow embedding of the Data Vault → Anchor Modeling converter in
`src/drawio_db/xml.py`, together with proofs of the specification claims.

Conventions of the embedding:
* Python's `DataVaultTypes | AnchorTypes` union over the table `type` field
  is flattened into one six-constructor inductive `TableType`; the enum
  `value` letters become `TableType.code`.
* Python exceptions (`assert`, `raise ValueError`, `KeyError` from a dict
  subscript, `IndexError` from `[0]`, and `functools.reduce` over an empty
  list) are modelled by `Option`: `none` means the call raises.
* Python `dict` objects are modelled as association lists with
  prepend-on-assignment, so `List.lookup` sees the most recent binding,
  matching dict overwrite semantics for reads.
* `dump_model` is embedded as `dump_model_core`, which returns, besides the
  result markup string, ghost observation fields recording the geometry
  handed to `Table.dump_xml` (the y passed for each placed anchor, and the
  pk-name/x pair for each placed attribute) and the accumulated
  `relations_to_create` list; `dump_model` itself projects the string.
-/

set_option maxHeartbeats 1000000

namespace DrawioDb

/-- Embeds the six table kinds: the `DataVaultTypes` enum (`hub`, `link`,
`satellite`) and the `AnchorTypes` enum (`anchor`, `tie`, `attribute`),
flattened from the Python union `DataVaultTypes | AnchorTypes`. -/
inductive TableType where
  | hub
  | link
  | satellite
  | anchor
  | tie
  | attribute
deriving DecidableEq, Repr

/-- The one-letter `value` of each Python enum member. -/
def TableType.code : TableType → String
  | .hub => "h"
  | .link => "l"
  | .satellite => "s"
  | .anchor => "a"
  | .tie => "t"
  | .attribute => "r"

/-- `SYSTEM_COLS` from the source. -/
def SYSTEM_COLS : List String := ["source_id", "load_dttm"]

/-- `@dataclass Column` from the source. -/
structure Column where
  flag : String
  name : String
deriving DecidableEq, Repr

/-- `@dataclass Table` from the source. -/
structure Table where
  name : String
  type : TableType
  columns : List Column
deriving DecidableEq, Repr

/-- `Table.width` property: the constant 180. -/
def Table.width (_ : Table) : Int := 180

/-- `Table.height` property: `ceil(37.5 * len(self.columns))`, written as
exact natural arithmetic `(75 * n + 1) / 2`. -/
def Table.height (t : Table) : Int := ((75 * t.columns.length + 1) / 2 : Nat)

/-- `system_columns()` from the source. -/
def system_columns : List Column := SYSTEM_COLS.map (fun c => ⟨"SYS", c⟩)

/-- The local `FLAGS` list in `parse_table`'s two-children case. -/
def FLAGS : List String := ["", "FK", "PK"]

/-- Python `str.upper()`: character-wise uppercase. Written over the
character list (extensionally the same as `String.toUpper`, but reducible
by the kernel). -/
def py_upper (s : String) : String := String.mk (s.data.map Char.toUpper)

/-- The two-children branch of the `match` in `parse_table` (the
`case 2:` arm): disambiguates the two child labels into `(flag, col_name)`.
Note the third condition is the source's literal `len(first_val) <
len(first_val)`. -/
def two_child_flag_name (first_val second_val : String) : String × String :=
  if py_upper first_val ∈ FLAGS then
    (py_upper first_val, second_val)
  else if py_upper second_val ∈ FLAGS then
    (py_upper second_val, first_val)
  else if first_val.length < first_val.length then
    (py_upper first_val, second_val)
  else
    (py_upper second_val, first_val)

/-- The `Column` that `parse_table` appends for a two-children row with
child labels `first_val` and `second_val`: the disambiguated pair followed
by the system-column override `flag = flag if col_name not in SYSTEM_COLS
else "SYS"`. -/
def two_child_column (first_val second_val : String) : Column :=
  let fn := two_child_flag_name first_val second_val
  ⟨if fn.2 ∈ SYSTEM_COLS then "SYS" else fn.1, fn.2⟩

/-- The `for column in table.columns` loop of the `satellite` branch of
`convert_dv_to_anchor`: columns whose flag is not exactly `""` are skipped,
every other column yields one attribute table. -/
def satellite_tables (nm : String) (pk : List Column) : List Column → List Table
  | [] => []
  | c :: cs =>
    if c.flag == "" then
      ⟨TableType.attribute.code ++ nm.drop 1 ++ "_" ++ c.name,
        TableType.attribute, pk ++ [c] ++ system_columns⟩ :: satellite_tables nm pk cs
    else
      satellite_tables nm pk cs

/-- `convert_dv_to_anchor` from the source. `none` models the `assert`
failures of the hub and satellite branches and the `ValueError` of the
already-anchor branch. -/
def convert_dv_to_anchor (t : Table) : Option (List Table) :=
  match t.type with
  | .hub =>
    let pk := t.columns.filter (fun c => c.flag == "PK")
    let ext_key := t.columns.filter (fun c => c.flag == "")
    if pk.length = 1 ∧ ext_key.length = 1 then
      some [⟨TableType.anchor.code ++ t.name.drop 1, TableType.anchor,
              pk ++ system_columns⟩,
            ⟨TableType.attribute.code ++ t.name.drop 1 ++ "_business_key",
              TableType.attribute, pk ++ ext_key ++ system_columns⟩]
    else none
  | .link =>
    some [⟨TableType.tie.code ++ t.name.drop 1, TableType.tie, t.columns⟩]
  | .satellite =>
    let pk := t.columns.filter (fun c => c.flag == "PK")
    if pk.length = 1 then
      some (satellite_tables t.name pk t.columns)
    else none
  | _ => none

/-- `Table.table_def` from the source: the container `mxCell` markup, with
the `.format` placeholders replaced by string concatenation. -/
def Table.table_def (t : Table) (x y : Int) : String :=
  "\n        <mxCell id=\"" ++ t.name ++ "\" value=\"" ++ t.name ++
  "\" style=\"shape=table;startSize=30;container=1;collapsible=1;childLayout=tableLayout;fixedRows=1;rowLines=0;fontStyle=1;align=center;resizeLast=1;html=1;\" vertex=\"1\" parent=\"1\">\n          <mxGeometry x=\"" ++
  toString x ++ "\" y=\"" ++ toString y ++ "\" width=\"" ++ toString t.width ++
  "\" height=\"" ++ toString t.height ++ "\" as=\"geometry\" />\n        </mxCell>\n        "

/-- `Table.pk_def` from the source: the three-cell row markup for a
primary-key column. -/
def Table.pk_def (t : Table) (column : Column) : String :=
  "\n        <mxCell id=\"" ++ t.name ++ "_" ++ column.name ++
  "_container\" value=\"\" style=\"shape=tableRow;horizontal=0;startSize=0;swimlaneHead=0;swimlaneBody=0;fillColor=none;collapsible=0;dropTarget=0;points=[[0,0.5],[1,0.5]];portConstraint=eastwest;top=0;left=0;right=0;bottom=1;\" vertex=\"1\" parent=\"" ++
  t.name ++ "\">\n          <mxGeometry y=\"30\" width=\"180\" height=\"30\" as=\"geometry\" />\n        </mxCell>\n        <mxCell id=\"" ++
  t.name ++ "_" ++ column.name ++ "_flag\" value=\"" ++ column.flag ++
  "\" style=\"shape=partialRectangle;connectable=0;fillColor=none;top=0;left=0;bottom=0;right=0;fontStyle=1;overflow=hidden;whiteSpace=wrap;html=1;\" vertex=\"1\" parent=\"" ++
  t.name ++ "_" ++ column.name ++
  "_container\">\n          <mxGeometry width=\"30\" height=\"30\" as=\"geometry\">\n            <mxRectangle width=\"30\" height=\"30\" as=\"alternateBounds\" />\n          </mxGeometry>\n        </mxCell>\n        <mxCell id=\"" ++
  t.name ++ "_" ++ column.name ++ "_column\" value=\"" ++ column.name ++
  "\" style=\"shape=partialRectangle;connectable=0;fillColor=none;top=0;left=0;bottom=0;right=0;align=left;spacingLeft=6;fontStyle=5;overflow=hidden;whiteSpace=wrap;html=1;\" vertex=\"1\" parent=\"" ++
  t.name ++ "_" ++ column.name ++
  "_container\">\n          <mxGeometry x=\"30\" width=\"150\" height=\"30\" as=\"geometry\">\n            <mxRectangle width=\"150\" height=\"30\" as=\"alternateBounds\" />\n          </mxGeometry>\n        </mxCell>\n        "

/-- `Table.col_def` from the source: the three-cell row markup for an
ordinary or system column. -/
def Table.col_def (t : Table) (column : Column) : String :=
  "\n        <mxCell id=\"" ++ t.name ++ "_" ++ column.name ++
  "_container\" value=\"\" style=\"shape=tableRow;horizontal=0;startSize=0;swimlaneHead=0;swimlaneBody=0;fillColor=none;collapsible=0;dropTarget=0;points=[[0,0.5],[1,0.5]];portConstraint=eastwest;top=0;left=0;right=0;bottom=0;\" vertex=\"1\" parent=\"" ++
  t.name ++ "\">\n          <mxGeometry y=\"60\" width=\"180\" height=\"30\" as=\"geometry\" />\n        </mxCell>\n        <mxCell id=\"" ++
  t.name ++ "_" ++ column.name ++ "_flag\" value=\"" ++ column.flag ++
  "\" style=\"shape=partialRectangle;connectable=0;fillColor=none;top=0;left=0;bottom=0;right=0;editable=1;overflow=hidden;whiteSpace=wrap;html=1;\" vertex=\"1\" parent=\"" ++
  t.name ++ "_" ++ column.name ++
  "_container\">\n          <mxGeometry width=\"30\" height=\"30\" as=\"geometry\">\n            <mxRectangle width=\"30\" height=\"30\" as=\"alternateBounds\" />\n          </mxGeometry>\n        </mxCell>\n        <mxCell id=\"" ++
  t.name ++ "_" ++ column.name ++ "_column\" value=\"" ++ column.name ++
  "\" style=\"shape=partialRectangle;connectable=0;fillColor=none;top=0;left=0;bottom=0;right=0;align=left;spacingLeft=6;overflow=hidden;whiteSpace=wrap;html=1;\" vertex=\"1\" parent=\"" ++
  t.name ++ "_" ++ column.name ++
  "_container\">\n          <mxGeometry x=\"30\" width=\"150\" height=\"30\" as=\"geometry\">\n            <mxRectangle width=\"150\" height=\"30\" as=\"alternateBounds\" />\n          </mxGeometry>\n        </mxCell>\n        "

/-- `functools.reduce(lambda a, b: a + b, l)` over a list of strings:
raises `TypeError` on the empty list, modelled by `none`. -/
def reduce1 : List String → Option String
  | [] => none
  | x :: xs => some (xs.foldl (fun a b => a ++ b) x)

/-- The row portion of `Table.dump_xml`: the reduced `pk_cols` block,
then the `normal_cols` block (empty string when there are no plain
columns, per the source's conditional), then the reduced `sys_cols`
block. `none` models the exception `reduce` raises when `pk_cols` or
`sys_cols` is empty. -/
def Table.row_markup (t : Table) : Option String :=
  let pk_cols := (t.columns.filter (fun c => c.flag == "PK")).map t.pk_def
  let normal_cols := (t.columns.filter (fun c => c.flag == "")).map t.col_def
  let sys_cols := (t.columns.filter (fun c => c.flag == "SYS")).map t.col_def
  match reduce1 pk_cols, reduce1 sys_cols with
  | some pks, some syss =>
    some (pks ++ (match reduce1 normal_cols with
                  | some ns => ns
                  | none => "") ++ syss)
  | _, _ => none

/-- `Table.dump_xml` from the source: `table_def` followed by the row
markup; `none` models the unguarded `reduce` exceptions. -/
def Table.dump_xml (t : Table) (x y : Int) : Option String :=
  (t.row_markup).map (fun rows => t.table_def x y ++ rows)

/-- `X_OFFSET` local constant in `dump_model`. -/
def X_OFFSET : Int := 50

/-- `Y_OFFSET` local constant in `dump_model`. -/
def Y_OFFSET : Int := 100

/-- State of `dump_model`'s first pass (the anchor loop): the accumulated
markup, the `table_offects` and `anchor_pks` dicts, and the `y_next`
cursor. `anchor_ys` is a ghost field recording, in placement order, the y
handed to each anchor's `dump_xml` call. -/
structure Pass1State where
  result : String
  table_offects : List (String × Int × Int)
  anchor_pks : List (String × String)
  y_next : Int
  anchor_ys : List Int

/-- First `for table in tables` loop of `dump_model`: non-anchor tables
are skipped; each anchor must have exactly one PK column (`assert`),
records its PK cell id in `anchor_pks`, is dumped at `(X_OFFSET, y_next)`,
seeds `table_offects` at `X_OFFSET + width + X_OFFSET`, and advances
`y_next` by `height + Y_OFFSET`. -/
def pass1 : Pass1State → List Table → Option Pass1State
  | st, [] => some st
  | st, t :: ts =>
    if t.type = TableType.anchor then
      match t.columns.filter (fun c => c.flag == "PK") with
      | [pk0] =>
        match t.dump_xml X_OFFSET st.y_next with
        | some xml =>
          pass1
            ⟨st.result ++ xml,
             (pk0.name, (X_OFFSET + t.width + X_OFFSET, st.y_next)) :: st.table_offects,
             (pk0.name, t.name ++ "_" ++ pk0.name ++ "_container") :: st.anchor_pks,
             st.y_next + t.height + Y_OFFSET,
             st.anchor_ys ++ [st.y_next]⟩ ts
        | none => none
      | _ => none
    else pass1 st ts

/-- The inner `for pk in non_anchor_pks` loop of `dump_model`'s second
pass: each PK column appends one `(anchor_pks[pk.name], this_pk)` pair;
a missing key (`KeyError`) is `none`. -/
def relations_for (anchor_pks : List (String × String)) (tname : String) :
    List Column → List (String × String) → Option (List (String × String))
  | [], acc => some acc
  | pk :: pks, acc =>
    match anchor_pks.lookup pk.name with
    | some src =>
      relations_for anchor_pks tname pks
        (acc ++ [(src, tname ++ "_" ++ pk.name ++ "_container")])
    | none => none

/-- State of `dump_model`'s second pass: accumulated markup, the
`table_offects` dict, and the `relations_to_create` list. `attr_xs` is a
ghost field recording, in placement order, the pk-name looked up and the
x handed to each attribute's `dump_xml` call. -/
structure Pass2State where
  result : String
  table_offects : List (String × Int × Int)
  relations : List (String × String)
  attr_xs : List (String × Int)

/-- Second `for table in tables` loop of `dump_model`: anchors skipped;
relations recorded for every PK column; attribute tables placed at the
looked-up `table_offects` cursor which then advances by `width +
X_OFFSET`; tie tables all dumped at `(-150, -150)`; any other kind only
records relations. `none` models `KeyError`/`IndexError` and `dump_xml`
exceptions. -/
def pass2 (anchor_pks : List (String × String)) : Pass2State → List Table → Option Pass2State
  | st, [] => some st
  | st, t :: ts =>
    if t.type = TableType.anchor then pass2 anchor_pks st ts
    else
      let non_anchor_pks := t.columns.filter (fun c => c.flag == "PK")
      match relations_for anchor_pks t.name non_anchor_pks st.relations with
      | none => none
      | some rels =>
        if t.type = TableType.attribute then
          match non_anchor_pks with
          | pk0 :: _ =>
            match st.table_offects.lookup pk0.name with
            | some (cx, cy) =>
              match t.dump_xml cx cy with
              | some xml =>
                pass2 anchor_pks
                  ⟨st.result ++ xml,
                   (pk0.name, (cx + t.width + X_OFFSET, cy)) :: st.table_offects,
                   rels,
                   st.attr_xs ++ [(pk0.name, cx)]⟩ ts
              | none => none
            | none => none
          | [] => none
        else if t.type = TableType.tie then
          match t.dump_xml (-150) (-150) with
          | some xml =>
            pass2 anchor_pks ⟨st.result ++ xml, st.table_offects, rels, st.attr_xs⟩ ts
          | none => none
        else pass2 anchor_pks ⟨st.result, st.table_offects, rels, st.attr_xs⟩ ts

/-- `relation_template.format(source=source, target=target)` from the
source. -/
def relation_fmt (source target : String) : String :=
  "\n    <mxCell id=\"" ++ source ++ "_to_" ++ target ++
  "\" value=\"\" style=\"edgeStyle=entityRelationEdgeStyle;fontSize=12;html=1;endArrow=ERmandOne;startArrow=ERmandOne;rounded=0;exitX=1;exitY=0.5;exitDx=0;exitDy=0;entryX=0;entryY=0.5;entryDx=0;entryDy=0;\" edge=\"1\" parent=\"1\" source=\"" ++
  source ++ "\" target=\"" ++ target ++
  "\">\n        <mxGeometry width=\"100\" height=\"100\" relative=\"1\" as=\"geometry\">\n        </mxGeometry>\n    </mxCell>\n    "

/-- The observable outcome of a `dump_model` call: the returned markup,
plus the ghost observations of the two passes. -/
structure DumpOut where
  result : String
  anchor_ys : List Int
  attr_xs : List (String × Int)
  relations : List (String × String)

/-- `dump_model` from the source, instrumented: two passes over the
table list, then one relation-template block appended per recorded
relation. `none` models any uncaught exception of the call. -/
def dump_model_core (tables : List Table) : Option DumpOut :=
  match pass1 ⟨"", [], [], Y_OFFSET, []⟩ tables with
  | none => none
  | some s1 =>
    match pass2 s1.anchor_pks ⟨s1.result, s1.table_offects, [], []⟩ tables with
    | none => none
    | some s2 =>
      some ⟨s2.relations.foldl (fun r p => r ++ relation_fmt p.1 p.2) s2.result,
            s1.anchor_ys, s2.attr_xs, s2.relations⟩

/-- `dump_model`'s actual return value: the markup string alone. -/
def dump_model (tables : List Table) : Option String :=
  (dump_model_core tables).map DumpOut.result

/-- One step of the standalone `anchor_pks` computation: an anchor table
with exactly one PK column contributes one binding from the PK name to
the anchor's PK row-container cell id. -/
def anchor_pk_step (m : List (String × String)) (t : Table) : List (String × String) :=
  if t.type = TableType.anchor then
    match t.columns.filter (fun c => c.flag == "PK") with
    | [pk0] => (pk0.name, t.name ++ "_" ++ pk0.name ++ "_container") :: m
    | _ => m
  else m

/-- The `anchor_pks` dict that pass 1 builds, computed standalone. -/
def anchorPkMap (tables : List Table) : List (String × String) :=
  tables.foldl anchor_pk_step []

/-- Specification of the emitted relation list: one edge per PK column of
each non-anchor table, in table order then column order, from the owning
anchor's PK cell (looked up by column name in `anchorPkMap`) to that
table's PK cell. -/
def relSpec (tables : List Table) : List (String × String) :=
  (tables.filter (fun t => !decide (t.type = TableType.anchor))).flatMap
    (fun t =>
      (t.columns.filter (fun c => c.flag == "PK")).map
        (fun c =>
          (((anchorPkMap tables).lookup c.name).getD "",
           t.name ++ "_" ++ c.name ++ "_container")))

/-! ## Helper lemmas -/

/-- The satellite loop is the map of the attribute-table constructor over
the plain (empty-flag) columns, in source order. -/
theorem satellite_tables_eq (nm : String) (pk : List Column) (cols : List Column) :
    satellite_tables nm pk cols =
      (cols.filter (fun c => c.flag == "")).map
        (fun c => ⟨TableType.attribute.code ++ nm.drop 1 ++ "_" ++ c.name,
                   TableType.attribute, pk ++ [c] ++ system_columns⟩) := by
  induction cols with
  | nil => rfl
  | cons c cs ih =>
    by_cases h : c.flag = "" <;>
      simp [satellite_tables, List.filter_cons, h, ih]

/-! ## Claim theorems -/

/-- C1: for a hub table whose columns contain exactly one column flagged
`"PK"` (`p`) and exactly one column with empty flag (`b`),
`convert_dv_to_anchor` returns exactly two tables in order: an anchor
named `"a"` + the input name minus its first character, with columns
`[p]` followed by the two system columns, and an attribute named the same
stem + `"_business_key"`, with columns `[p, b]` followed by the two
system columns. -/
theorem hub_conversion (t : Table) (p b : Column)
    (ht : t.type = TableType.hub)
    (hpk : t.columns.filter (fun c => c.flag == "PK") = [p])
    (hb : t.columns.filter (fun c => c.flag == "") = [b]) :
    convert_dv_to_anchor t =
      some [⟨"a" ++ t.name.drop 1, TableType.anchor, [p] ++ system_columns⟩,
            ⟨"r" ++ t.name.drop 1 ++ "_business_key", TableType.attribute,
              [p, b] ++ system_columns⟩] := by
  simp [convert_dv_to_anchor, ht, hpk, hb, TableType.code]

/-- Witness for C1 at the spec's own example hub `h_customer`. -/
theorem hub_conversion_witness :
    (Table.mk "h_customer" TableType.hub
        [⟨"PK", "customer_id"⟩, ⟨"", "customer_code"⟩]).type = TableType.hub ∧
    (Table.mk "h_customer" TableType.hub
        [⟨"PK", "customer_id"⟩, ⟨"", "customer_code"⟩]).columns.filter
        (fun c => c.flag == "PK") = [⟨"PK", "customer_id"⟩] ∧
    (Table.mk "h_customer" TableType.hub
        [⟨"PK", "customer_id"⟩, ⟨"", "customer_code"⟩]).columns.filter
        (fun c => c.flag == "") = [⟨"", "customer_code"⟩] ∧
    convert_dv_to_anchor
        (Table.mk "h_customer" TableType.hub
          [⟨"PK", "customer_id"⟩, ⟨"", "customer_code"⟩]) =
      some [⟨"a_customer", TableType.anchor,
              [⟨"PK", "customer_id"⟩] ++ system_columns⟩,
            ⟨"r_customer_business_key", TableType.attribute,
              [⟨"PK", "customer_id"⟩, ⟨"", "customer_code"⟩] ++ system_columns⟩] :=
  ⟨rfl, rfl, rfl, hub_conversion _ _ _ rfl rfl rfl⟩

/-- C2: for a satellite table with exactly one `"PK"` column `p`,
`convert_dv_to_anchor` returns one attribute table per empty-flag column,
in source column order, each with columns `[p, that column]` followed by
the two system columns; columns flagged PK, FK or SYS produce no table,
and zero plain columns produce zero tables. -/
theorem satellite_conversion (t : Table) (p : Column)
    (ht : t.type = TableType.satellite)
    (hpk : t.columns.filter (fun c => c.flag == "PK") = [p]) :
    convert_dv_to_anchor t =
      some ((t.columns.filter (fun c => c.flag == "")).map
        (fun c => ⟨"r" ++ t.name.drop 1 ++ "_" ++ c.name, TableType.attribute,
                   [p, c] ++ system_columns⟩)) := by
  simp [convert_dv_to_anchor, ht, hpk, satellite_tables_eq, TableType.code]

/-- Witness for C2 at a satellite with two plain columns and one FK
column: two attribute tables, FK skipped. -/
theorem satellite_conversion_witness :
    (Table.mk "s_cust_profile" TableType.satellite
        [⟨"PK", "customer_id"⟩, ⟨"", "name1"⟩, ⟨"FK", "x1"⟩, ⟨"", "email"⟩]).type
      = TableType.satellite ∧
    (Table.mk "s_cust_profile" TableType.satellite
        [⟨"PK", "customer_id"⟩, ⟨"", "name1"⟩, ⟨"FK", "x1"⟩, ⟨"", "email"⟩]).columns.filter
        (fun c => c.flag == "PK") = [⟨"PK", "customer_id"⟩] ∧
    convert_dv_to_anchor
        (Table.mk "s_cust_profile" TableType.satellite
          [⟨"PK", "customer_id"⟩, ⟨"", "name1"⟩, ⟨"FK", "x1"⟩, ⟨"", "email"⟩]) =
      some [⟨"r_cust_profile_name1", TableType.attribute,
              [⟨"PK", "customer_id"⟩, ⟨"", "name1"⟩] ++ system_columns⟩,
            ⟨"r_cust_profile_email", TableType.attribute,
              [⟨"PK", "customer_id"⟩, ⟨"", "email"⟩] ++ system_columns⟩] :=
  ⟨rfl, rfl, satellite_conversion _ _ rfl rfl⟩

/-- C4: for every link table, `convert_dv_to_anchor` returns exactly one
tie table named `"t"` + the input name minus its first character, with
the input's column list carried through identically; no key-shape
validation is performed (no hypothesis on the columns is needed). -/
theorem link_conversion (t : Table) (ht : t.type = TableType.link) :
    convert_dv_to_anchor t =
      some [⟨"t" ++ t.name.drop 1, TableType.tie, t.columns⟩] := by
  simp [convert_dv_to_anchor, ht, TableType.code]

/-- Witness for C4 at a link with a single FK column and no PK at all:
conversion still succeeds and carries the column through. -/
theorem link_conversion_witness :
    (Table.mk "l_z" TableType.link [⟨"FK", "x1"⟩]).type = TableType.link ∧
    convert_dv_to_anchor (Table.mk "l_z" TableType.link [⟨"FK", "x1"⟩]) =
      some [⟨"t_z", TableType.tie, [⟨"FK", "x1"⟩]⟩] :=
  ⟨rfl, link_conversion _ rfl⟩

/-- C5, counterexample: for the two-child row labels `"PK"` and
`"source_id"` the hypotheses of the claim hold (`"PK"` matches
case-insensitively, `"source_id"` matches none of the flag vocabulary),
yet the extracted Column is not `⟨"PK", "source_id"⟩`: the system-column
override of `parse_table` forces flag `"SYS"`. -/
theorem flag_disambiguation_cex :
    py_upper "PK" = "PK" ∧ py_upper "source_id" ∉ FLAGS ∧
    two_child_column "PK" "source_id" ≠ ⟨"PK", "source_id"⟩ ∧
    two_child_column "PK" "source_id" = ⟨"SYS", "source_id"⟩ := by
  refine ⟨rfl, by decide, by decide, rfl⟩

/-- C5, amended: for a two-child row where one label case-insensitively
equals `"PK"`, the other matches none of `""`, `"FK"`, `"PK"`, and the
other is additionally not a system-column name, the extracted Column has
flag `"PK"` and name equal to the other label, whichever position each
label occupies. -/
theorem flag_disambiguation (a b : String)
    (ha : py_upper a = "PK") (hb : py_upper b ∉ FLAGS) (hsys : b ∉ SYSTEM_COLS) :
    two_child_column a b = ⟨"PK", b⟩ ∧ two_child_column b a = ⟨"PK", b⟩ := by
  have haf : py_upper a ∈ FLAGS := by rw [ha]; decide
  have hb' : ¬(py_upper b = "" ∨ py_upper b = "FK" ∨ py_upper b = "PK") := by
    simpa [FLAGS] using hb
  constructor <;>
    simp [two_child_column, two_child_flag_name, ha, haf, hb', hsys, FLAGS]

/-- Witness for C5 (amended) at labels `"Pk"` / `"customer_code"`. -/
theorem flag_disambiguation_witness :
    py_upper "Pk" = "PK" ∧ py_upper "customer_code" ∉ FLAGS ∧
    "customer_code" ∉ SYSTEM_COLS ∧
    (two_child_column "Pk" "customer_code" = ⟨"PK", "customer_code"⟩ ∧
     two_child_column "customer_code" "Pk" = ⟨"PK", "customer_code"⟩) :=
  ⟨rfl, by decide, by decide,
   flag_disambiguation "Pk" "customer_code" rfl (by decide) (by decide)⟩

/-- C6: in the two-child fallback path (neither label case-insensitively
in the flag vocabulary), the source's self-referential length comparison
`len(first_val) < len(first_val)` never selects its first branch: the
result is always (second label uppercased, first label). -/
theorem fallback_second_label (a b : String)
    (hA : py_upper a ∉ FLAGS) (hB : py_upper b ∉ FLAGS) :
    two_child_flag_name a b = (py_upper b, a) := by
  simp [two_child_flag_name, hA, hB]

/-- Witness for C6 at labels `"foo"` / `"bar"`. -/
theorem fallback_second_label_witness :
    py_upper "foo" ∉ FLAGS ∧ py_upper "bar" ∉ FLAGS ∧
    two_child_flag_name "foo" "bar" = ("BAR", "foo") :=
  ⟨by decide, by decide,
   fallback_second_label "foo" "bar" (by decide) (by decide)⟩

/-- Filtering a column list down to the recognized row flags first does
not change a subsequent filter for one of those flags. -/
theorem filter_flag_of_filter_rows (f : String)
    (hf : f = "PK" ∨ f = "" ∨ f = "SYS") (cols : List Column) :
    (cols.filter
      (fun c => c.flag == "PK" || c.flag == "" || c.flag == "SYS")).filter
      (fun c => c.flag == f) = cols.filter (fun c => c.flag == f) := by
  induction cols with
  | nil => rfl
  | cons c cs ih =>
    by_cases h : c.flag = f
    · rcases hf with hf | hf | hf <;> subst hf <;>
        simp [List.filter_cons, h, ih]
    · by_cases hg : (c.flag == "PK" || c.flag == "" || c.flag == "SYS") = true <;>
        simp [List.filter_cons, h, hg, ih]

/-- C9: `Table.dump_xml` emits row markup only for columns whose flag is
exactly `"PK"`, `""` or `"SYS"`: the emitted row block equals the row
block of the same table with every other-flagged column (e.g. `"FK"` on a
tie) removed — such columns are silently omitted (they still count toward
the container's height inside `table_def`). -/
theorem dump_xml_rows_only (t : Table) (x y : Int) :
    t.dump_xml x y =
      (Table.row_markup ⟨t.name, t.type,
          t.columns.filter
            (fun c => c.flag == "PK" || c.flag == "" || c.flag == "SYS")⟩).map
        (fun rows => t.table_def x y ++ rows) := by
  have hpk := filter_flag_of_filter_rows "PK" (Or.inl rfl) t.columns
  have hpl := filter_flag_of_filter_rows "" (Or.inr (Or.inl rfl)) t.columns
  have hsy := filter_flag_of_filter_rows "SYS" (Or.inr (Or.inr rfl)) t.columns
  simp only [Table.dump_xml, Table.row_markup, hpk, hpl, hsy]
  rfl

/-- C10: `Table.dump_xml` is partial: with zero `"PK"`-flagged columns or
zero `"SYS"`-flagged columns, the unguarded `reduce` over an empty list
raises (modelled as `none`) instead of returning markup. -/
theorem dump_xml_partial (t : Table) (x y : Int)
    (h : t.columns.filter (fun c => c.flag == "PK") = [] ∨
         t.columns.filter (fun c => c.flag == "SYS") = []) :
    t.dump_xml x y = none := by
  rcases h with h | h
  · simp [Table.dump_xml, Table.row_markup, h, reduce1]
  · simp only [Table.dump_xml, Table.row_markup, h, List.map_nil]
    cases hr : reduce1 ((t.columns.filter (fun c => c.flag == "PK")).map t.pk_def) <;>
      simp [reduce1, hr]

/-- Witness for C10 at a tie table converted from a link whose single
column is FK-flagged: emission fails. -/
theorem dump_xml_partial_witness :
    (Table.mk "t_x" TableType.tie [⟨"FK", "a_id"⟩]).columns.filter
        (fun c => c.flag == "PK") = [] ∧
    (Table.mk "t_x" TableType.tie [⟨"FK", "a_id"⟩]).dump_xml 0 0 = none :=
  ⟨rfl, dump_xml_partial _ 0 0 (Or.inl rfl)⟩

/-- C3, counterexample: for a link input, `convert_dv_to_anchor` carries
the column list through unchanged, so the tie output of a link without
system columns has no system columns appended — the claim's "every
Data-Vault input kind (hub, link, and satellite)" fails on link. -/
theorem sys_append_cex :
    convert_dv_to_anchor ⟨"l_x", TableType.link, [⟨"PK", "a_id"⟩]⟩ =
      some [⟨"t_x", TableType.tie, [⟨"PK", "a_id"⟩]⟩] ∧
    Column.mk "SYS" "source_id" ∉
      (Table.mk "t_x" TableType.tie [⟨"PK", "a_id"⟩]).columns ∧
    Column.mk "SYS" "load_dttm" ∉
      (Table.mk "t_x" TableType.tie [⟨"PK", "a_id"⟩]).columns :=
  ⟨rfl, by decide, by decide⟩

/-- C3, amended: every table output by `convert_dv_to_anchor` for hub and
satellite inputs has the two system columns (flag `"SYS"`, names
`source_id` and `load_dttm`) appended to its column list, and no system
column is flagged `"PK"` or `"FK"`; link outputs carry the input columns
through unchanged, so nothing is appended there. -/
theorem sys_append (t out : Table) (ts : List Table)
    (ht : t.type = TableType.hub ∨ t.type = TableType.satellite)
    (hc : convert_dv_to_anchor t = some ts) (hm : out ∈ ts) :
    (∃ pre, out.columns = pre ++ system_columns) ∧
    ∀ c ∈ system_columns, c.flag = "SYS" ∧ c.flag ≠ "PK" ∧ c.flag ≠ "FK" := by
  refine ⟨?_, by decide⟩
  rcases ht with ht | ht
  · rw [convert_dv_to_anchor, ht] at hc
    simp only [] at hc
    split at hc
    · rw [Option.some_inj] at hc
      subst hc
      simp only [List.mem_cons, List.not_mem_nil, or_false] at hm
      rcases hm with rfl | rfl
      · exact ⟨_, rfl⟩
      · exact ⟨_, rfl⟩
    · exact absurd hc (by simp)
  · rw [convert_dv_to_anchor, ht] at hc
    simp only [] at hc
    split at hc
    · rw [Option.some_inj] at hc
      subst hc
      rw [satellite_tables_eq] at hm
      rcases List.mem_map.mp hm with ⟨c, _, hcq⟩
      subst hcq
      exact ⟨_, rfl⟩
    · exact absurd hc (by simp)

/-- Witness for C3 (amended) at the `h_customer` hub's anchor output. -/
theorem sys_append_witness :
    ((Table.mk "h_customer" TableType.hub
        [⟨"PK", "customer_id"⟩, ⟨"", "customer_code"⟩]).type = TableType.hub ∨
     (Table.mk "h_customer" TableType.hub
        [⟨"PK", "customer_id"⟩, ⟨"", "customer_code"⟩]).type = TableType.satellite) ∧
    convert_dv_to_anchor
        (Table.mk "h_customer" TableType.hub
          [⟨"PK", "customer_id"⟩, ⟨"", "customer_code"⟩]) =
      some [⟨"a_customer", TableType.anchor,
              [⟨"PK", "customer_id"⟩] ++ system_columns⟩,
            ⟨"r_customer_business_key", TableType.attribute,
              [⟨"PK", "customer_id"⟩, ⟨"", "customer_code"⟩] ++ system_columns⟩] ∧
    ((∃ pre, (Table.mk "a_customer" TableType.anchor
        ([⟨"PK", "customer_id"⟩] ++ system_columns)).columns =
          pre ++ system_columns) ∧
     ∀ c ∈ system_columns, c.flag = "SYS" ∧ c.flag ≠ "PK" ∧ c.flag ≠ "FK") :=
  ⟨Or.inl rfl, rfl,
   sys_append
     (Table.mk "h_customer" TableType.hub
       [⟨"PK", "customer_id"⟩, ⟨"", "customer_code"⟩])
     (Table.mk "a_customer" TableType.anchor
       ([⟨"PK", "customer_id"⟩] ++ system_columns))
     [Table.mk "a_customer" TableType.anchor
        ([Column.mk "PK" "customer_id"] ++ system_columns),
      Table.mk "r_customer_business_key" TableType.attribute
        ([Column.mk "PK" "customer_id", Column.mk "" "customer_code"] ++
          system_columns)]
     (Or.inl rfl) rfl (by simp)⟩

/-- Pass 1 succeeds only by performing, anchor for anchor, the
`anchor_pk_step` updates on the `anchor_pks` dict. -/
theorem pass1_anchor_pks : ∀ (ts : List Table) (st st' : Pass1State),
    pass1 st ts = some st' →
    st'.anchor_pks = ts.foldl anchor_pk_step st.anchor_pks := by
  intro ts
  induction ts with
  | nil =>
    intro st st' h
    simp only [pass1, Option.some_inj] at h
    subst h
    rfl
  | cons t ts ih =>
    intro st st' h
    simp only [pass1] at h
    by_cases ht : t.type = TableType.anchor
    · rw [if_pos ht] at h
      split at h
      · rename_i pk0 hf
        split at h
        · rw [List.foldl_cons, ih _ _ h]
          simp [anchor_pk_step, ht, hf]
        · cases h
      · cases h
    · rw [if_neg ht] at h
      rw [List.foldl_cons, ih _ _ h]
      simp [anchor_pk_step, ht]

/-- The inner relation loop appends, PK column for PK column, the pair
(owning anchor's PK cell, this table's PK cell); success implies every
lookup hit. -/
theorem relations_for_spec :
    ∀ (A : List (String × String)) (nm : String) (pks : List Column)
      (acc res : List (String × String)),
    relations_for A nm pks acc = some res →
    res = acc ++ pks.map
        (fun pk => ((A.lookup pk.name).getD "",
                    nm ++ "_" ++ pk.name ++ "_container")) ∧
    ∀ pk ∈ pks, (A.lookup pk.name).isSome = true := by
  intro A nm pks
  induction pks with
  | nil =>
    intro acc res h
    simp only [relations_for, Option.some_inj] at h
    simp [h.symm]
  | cons pk pks ih =>
    intro acc res h
    simp only [relations_for] at h
    cases hl : A.lookup pk.name with
    | none => rw [hl] at h; cases h
    | some src =>
      rw [hl] at h
      obtain ⟨h1, h2⟩ := ih _ _ h
      refine ⟨?_, ?_⟩
      · rw [h1]
        simp [hl]
      · intro q hq
        rcases List.mem_cons.mp hq with rfl | hq
        · simp [hl]
        · exact h2 _ hq

/-- Pass 2 succeeds only by appending to `relations_to_create` exactly
one pair per PK column of each non-anchor table, in input order; success
implies every `anchor_pks` lookup hit. -/
theorem pass2_relations : ∀ (A : List (String × String)) (ts : List Table)
    (st st' : Pass2State), pass2 A st ts = some st' →
    st'.relations = st.relations ++
      (ts.filter (fun t => !decide (t.type = TableType.anchor))).flatMap
        (fun t => (t.columns.filter (fun c => c.flag == "PK")).map
          (fun c => ((A.lookup c.name).getD "",
                     t.name ++ "_" ++ c.name ++ "_container"))) ∧
    ∀ t ∈ ts, ¬ t.type = TableType.anchor →
      ∀ c ∈ t.columns.filter (fun c => c.flag == "PK"),
        (A.lookup c.name).isSome = true := by
  intro A ts
  induction ts with
  | nil =>
    intro st st' h
    simp only [pass2, Option.some_inj] at h
    simp [h.symm]
  | cons t ts ih =>
    intro st st' h
    simp only [pass2] at h
    by_cases ht : t.type = TableType.anchor
    · rw [if_pos ht] at h
      obtain ⟨h1, h2⟩ := ih _ _ h
      refine ⟨?_, ?_⟩
      · rw [h1]
        simp [ht]
      · intro q hq hqa
        rcases List.mem_cons.mp hq with rfl | hq
        · exact absurd ht hqa
        · exact h2 _ hq hqa
    · rw [if_neg ht] at h
      split at h
      · cases h
      · rename_i rels hr
        obtain ⟨hr1, hr2⟩ := relations_for_spec _ _ _ _ _ hr
        have step :
            ∀ st2 : Pass2State, st2.relations = rels → pass2 A st2 ts = some st' →
            st'.relations = st.relations ++
              ((t :: ts).filter
                  (fun t => !decide (t.type = TableType.anchor))).flatMap
                (fun t => (t.columns.filter (fun c => c.flag == "PK")).map
                  (fun c => ((A.lookup c.name).getD "",
                             t.name ++ "_" ++ c.name ++ "_container"))) ∧
            ∀ q ∈ t :: ts, ¬ q.type = TableType.anchor →
              ∀ c ∈ q.columns.filter (fun c => c.flag == "PK"),
                (A.lookup c.name).isSome = true := by
          intro st2 hrel2 h2
          obtain ⟨h1, hmem⟩ := ih _ _ h2
          refine ⟨?_, ?_⟩
          · rw [h1, hrel2, hr1]
            simp [ht]
          · intro q hq hqa
            rcases List.mem_cons.mp hq with rfl | hq
            · exact hr2
            · exact hmem _ hq hqa
        by_cases hta : t.type = TableType.attribute
        · rw [if_pos hta] at h
          split at h
          · split at h
            · split at h
              · exact step _ rfl h
              · cases h
            · cases h
          · cases h
        · rw [if_neg hta] at h
          by_cases htie : t.type = TableType.tie
          · rw [if_pos htie] at h
            split at h
            · exact step _ rfl h
            · cases h
          · rw [if_neg htie] at h
            exact step _ rfl h

/-- C7: whenever `dump_model` succeeds, the emitted relation edges are
exactly one edge per PK-flagged column of each non-anchor table — source
the owning anchor's PK-cell identifier (the `anchor_pks` binding for
that column name), target the non-anchor table's PK-cell identifier —
and every such column name is bound by some anchor in the list. -/
theorem dump_model_relations (tables : List Table) (out : DumpOut)
    (h : dump_model_core tables = some out) :
    out.relations = relSpec tables ∧
    ∀ t ∈ tables, ¬ t.type = TableType.anchor → ∀ c ∈ t.columns,
      c.flag = "PK" →
      ((anchorPkMap tables).lookup c.name).isSome = true := by
  unfold dump_model_core at h
  split at h
  · cases h
  · rename_i s1 hp1
    split at h
    · cases h
    · rename_i s2 hp2
      rw [Option.some_inj] at h
      subst h
      have hA : s1.anchor_pks = anchorPkMap tables :=
        pass1_anchor_pks tables _ _ hp1
      obtain ⟨h1, h2⟩ := pass2_relations _ _ _ _ hp2
      refine ⟨?_, ?_⟩
      · show s2.relations = relSpec tables
        rw [h1, hA, relSpec]
        simp
      · intro t hmem hta c hc hflag
        rw [← hA]
        exact h2 t hmem hta c
          (List.mem_filter.mpr ⟨hc, by simp [hflag]⟩)

/-- A table's height is never negative. -/
theorem height_nonneg (t : Table) : 0 ≤ t.height := Int.natCast_nonneg _

/-- Pass 1 keeps the recorded anchor y-coordinates strictly increasing
and strictly below the running `y_next` cursor. -/
theorem pass1_ys : ∀ (ts : List Table) (st st' : Pass1State),
    pass1 st ts = some st' →
    st.anchor_ys.Pairwise (· < ·) → (∀ y ∈ st.anchor_ys, y < st.y_next) →
    st'.anchor_ys.Pairwise (· < ·) ∧ ∀ y ∈ st'.anchor_ys, y < st'.y_next := by
  intro ts
  induction ts with
  | nil =>
    intro st st' h hp hb
    simp only [pass1, Option.some_inj] at h
    subst h
    exact ⟨hp, hb⟩
  | cons t ts ih =>
    intro st st' h hp hb
    simp only [pass1] at h
    by_cases ht : t.type = TableType.anchor
    · rw [if_pos ht] at h
      split at h
      · split at h
        · have hstep : st.y_next < st.y_next + t.height + Y_OFFSET := by
            have h0 := height_nonneg t
            simp only [Y_OFFSET]
            linarith
          refine ih _ _ h ?_ ?_
          · refine List.pairwise_append.mpr ⟨hp, List.pairwise_singleton _ _, ?_⟩
            intro a ha b hbm
            rw [List.mem_singleton] at hbm
            subst hbm
            exact hb a ha
          · intro y hy
            rcases List.mem_append.mp hy with hy | hy
            · exact lt_trans (hb y hy) hstep
            · rw [List.mem_singleton] at hy
              subst hy
              exact hstep
        · cases h
      · cases h
    · rw [if_neg ht] at h
      exact ih _ _ h hp hb

/-- The x-coordinates recorded by pass 2 for attributes that looked up
the pk name `n`, in placement order. -/
def attr_xs_for (n : String) (pl : List (String × Int)) : List Int :=
  (pl.filter (fun p => p.1 == n)).map Prod.snd

/-- Appending one placement touches only its own pk name's column. -/
theorem attr_xs_for_append (n m : String) (cx : Int) (xs : List (String × Int)) :
    attr_xs_for n (xs ++ [(m, cx)]) =
      attr_xs_for n xs ++ (if m = n then [cx] else []) := by
  by_cases h : m = n <;> simp [attr_xs_for, List.filter_append, h]

/-- Pass 2 keeps, for every pk name, the recorded attribute
x-coordinates strictly increasing (each below the name's current
x-cursor in `table_offects`). -/
theorem pass2_xs : ∀ (A : List (String × String)) (ts : List Table)
    (st st' : Pass2State), pass2 A st ts = some st' →
    (∀ n, (attr_xs_for n st.attr_xs).Pairwise (· < ·)) →
    (∀ n cx cy, st.table_offects.lookup n = some (cx, cy) →
      ∀ x ∈ attr_xs_for n st.attr_xs, x < cx) →
    ∀ n, (attr_xs_for n st'.attr_xs).Pairwise (· < ·) := by
  intro A ts
  induction ts with
  | nil =>
    intro st st' h h1 _
    simp only [pass2, Option.some_inj] at h
    subst h
    exact h1
  | cons t ts ih =>
    intro st st' h h1 h2
    simp only [pass2] at h
    by_cases ht : t.type = TableType.anchor
    · rw [if_pos ht] at h
      exact ih _ _ h h1 h2
    · rw [if_neg ht] at h
      split at h
      · cases h
      · rename_i rels hr
        by_cases hta : t.type = TableType.attribute
        · rw [if_pos hta] at h
          split at h
          · rename_i pk0 rest hpks
            split at h
            · rename_i cxy cx cy hlk
              split at h
              · rename_i xml hxml
                have hcursor : cx < cx + t.width + X_OFFSET := by
                  simp only [Table.width, X_OFFSET]
                  linarith
                refine ih _ _ h ?_ ?_
                · intro n
                  rw [attr_xs_for_append]
                  by_cases hnm : pk0.name = n
                  · subst hnm
                    rw [if_pos rfl]
                    refine List.pairwise_append.mpr
                      ⟨h1 _, List.pairwise_singleton _ _, ?_⟩
                    intro a ha b hbm
                    rw [List.mem_singleton] at hbm
                    subst hbm
                    exact h2 _ _ _ hlk a ha
                  · rw [if_neg hnm]
                    simp [h1 n]
                · intro n cx' cy' hlk' x hx
                  rw [attr_xs_for_append] at hx
                  by_cases hnm : pk0.name = n
                  · subst hnm
                    rw [List.lookup_cons_self] at hlk'
                    rw [Option.some_inj] at hlk'
                    injection hlk' with hcx hcy
                    subst hcx
                    rcases List.mem_append.mp hx with hx | hx
                    · exact lt_trans (h2 _ _ _ hlk x hx) hcursor
                    · rw [if_pos rfl, List.mem_singleton] at hx
                      subst hx
                      exact hcursor
                  · have hlk2 : st.table_offects.lookup n = some (cx', cy') := by
                      rw [List.lookup_cons] at hlk'
                      simpa [beq_eq_false_iff_ne.mpr (Ne.symm hnm)] using hlk'
                    rw [if_neg hnm, List.append_nil] at hx
                    exact h2 n _ _ hlk2 x hx
              · cases h
            · cases h
          · cases h
        · rw [if_neg hta] at h
          by_cases htie : t.type = TableType.tie
          · rw [if_pos htie] at h
            split at h
            · exact ih _ _ h h1 h2
            · cases h
          · rw [if_neg htie] at h
            exact ih _ _ h h1 h2

/-- C8: whenever `dump_model` succeeds, no two anchor tables are handed
the same y-coordinate, and no two attribute tables that looked up the
same PK column name in the x-cursor map are handed the same
x-coordinate. -/
theorem dump_model_layout (tables : List Table) (out : DumpOut)
    (h : dump_model_core tables = some out) :
    out.anchor_ys.Pairwise (fun a b => a ≠ b) ∧
    ∀ n, (attr_xs_for n out.attr_xs).Pairwise (fun a b => a ≠ b) := by
  unfold dump_model_core at h
  split at h
  · cases h
  · rename_i s1 hp1
    split at h
    · cases h
    · rename_i s2 hp2
      rw [Option.some_inj] at h
      subst h
      have hy := pass1_ys tables _ _ hp1 (by simp) (by simp)
      have hx : ∀ n, (attr_xs_for n s2.attr_xs).Pairwise (· < ·) :=
        pass2_xs _ tables _ _ hp2
          (by intro n; simp [attr_xs_for])
          (by intro n cx cy _ x hx; simp [attr_xs_for] at hx)
      constructor
      · exact hy.1.imp ne_of_lt
      · intro n
        exact (hx n).imp ne_of_lt

/-- A concrete converted-table list for exercising `dump_model`: the two
outputs of converting the hub `h_c`. -/
def dumpW_tables : List Table :=
  [⟨"a_c", TableType.anchor,
     [⟨"PK", "id"⟩, ⟨"SYS", "source_id"⟩, ⟨"SYS", "load_dttm"⟩]⟩,
   ⟨"r_c_business_key", TableType.attribute,
     [⟨"PK", "id"⟩, ⟨"", "code"⟩, ⟨"SYS", "source_id"⟩, ⟨"SYS", "load_dttm"⟩]⟩]

/-- The successful outcome of `dump_model_core` on `dumpW_tables`. -/
def dumpW_out : DumpOut := (dump_model_core dumpW_tables).getD ⟨"", [], [], []⟩

/-- Witness for C7 at `dumpW_tables`. -/
theorem dump_model_relations_witness :
    dump_model_core dumpW_tables = some dumpW_out ∧
    (dumpW_out.relations = relSpec dumpW_tables ∧
     ∀ t ∈ dumpW_tables, ¬ t.type = TableType.anchor → ∀ c ∈ t.columns,
       c.flag = "PK" →
       ((anchorPkMap dumpW_tables).lookup c.name).isSome = true) :=
  ⟨rfl, dump_model_relations dumpW_tables dumpW_out rfl⟩

/-- Witness for C8 at `dumpW_tables`. -/
theorem dump_model_layout_witness :
    dump_model_core dumpW_tables = some dumpW_out ∧
    (dumpW_out.anchor_ys.Pairwise (fun a b => a ≠ b) ∧
     ∀ n, (attr_xs_for n dumpW_out.attr_xs).Pairwise (fun a b => a ≠ b)) :=
  ⟨rfl, dump_model_layout dumpW_tables dumpW_out rfl⟩

end DrawioDb
